import Mathlib

/-!
Shallow embedding of the arena (bump-pointer) allocator from
`src/arena/src/lib.rs`.

The Rust code operates on `usize` (64-bit) addresses.  We model addresses,
offsets and sizes as `Nat`, inserting `% 2 ^ 64` exactly where the Rust
expression can wrap (`base + (alignment - 1)` and `!alignment + 1`).
Rust `usize` subtraction is modelled by truncated `Nat` subtraction; in the
two places it occurs (`aligned - base` and `storage.len() - offset`) the
minuend is at least the subtrahend in every state reachable by the real
program, so the two semantics agree there.

Fallible behaviour: `allocate` returns `Err(AllocError)` on the space check,
and the slice expression `&mut data.storage[current_offset+alignment..layout.size()]`
panics when its start index exceeds its end index (or the end exceeds the
storage length).  Both outcomes are reified in `AllocResult`.
-/

/-- 64-bit address space size, the modulus of Rust `usize` arithmetic. -/
def USIZE : Nat := 2 ^ 64

/-- `ArenaData` from the source: the backing storage (a byte vector), the
address of its first byte, and the current free offset. -/
structure ArenaData where
  storage : List Nat
  base_address : Nat
  offset : Nat
  deriving DecidableEq

/-- Rust `Layout`: a requested size and alignment in bytes. -/
structure Layout where
  size : Nat
  align : Nat
  deriving DecidableEq

/-- The source's aligned address:
`let aligned = (base + (alignment - 1)) & (!alignment + 1);`.
`!alignment + 1` is two's-complement negation, i.e. `(2^64 - alignment) % 2^64`. -/
def alignedBase (base alignment : Nat) : Nat :=
  Nat.land ((base + (alignment - 1)) % USIZE) ((USIZE - alignment % USIZE) % USIZE)

/-- The source's front adjustment, its shadowed `alignment` variable:
`let alignment = aligned - base;`.  Note it is computed from the region's
base address alone; the current offset does not enter. -/
def padding (base alignment : Nat) : Nat :=
  alignedBase base alignment - base

/-- Address and length of a returned `NonNull<[u8]>` byte range. -/
structure ByteRange where
  addr : Nat
  len : Nat
  deriving DecidableEq

/-- Outcome of one `allocate` call: a returned range, `Err(AllocError)`,
or a slice-indexing panic. -/
inductive AllocResult where
  | ok : ByteRange → AllocResult
  | allocError : AllocResult
  | panicked : AllocResult
  deriving DecidableEq

/-- `Allocator::allocate` for `&Arena`, from the source.  Returns the
post-call `ArenaData` together with the outcome.  The offset update happens
before the slice expression is evaluated, so a panicking call has already
advanced the cursor. -/
def allocate (data : ArenaData) (layout : Layout) : ArenaData × AllocResult :=
  let base := data.base_address
  let alignment := padding base layout.align
  let total_size := alignment + layout.size
  let current_offset := data.offset
  let space := data.storage.length - current_offset
  if total_size > space then
    (data, AllocResult.allocError)
  else
    let data' : ArenaData :=
      { data with offset := data.offset + total_size }
    if current_offset + alignment ≤ layout.size ∧ layout.size ≤ data.storage.length then
      (data', AllocResult.ok
        ⟨base + (current_offset + alignment), layout.size - (current_offset + alignment)⟩)
    else
      (data', AllocResult.panicked)

/-- `Allocator::deallocate` for `&Arena`, from the source: does nothing. -/
def deallocate (data : ArenaData) (_ptr : Nat) (_layout : Layout) : ArenaData :=
  data

/-- The `ArenaData` built inside `Arena::with`: a zero-initialised buffer of
`bytes` bytes at base address `base_address`, offset `0`. -/
def initArena (bytes base_address : Nat) : ArenaData :=
  { storage := List.replicate bytes 0, base_address := base_address, offset := 0 }

/-- `Arena::with` from the source.  The callback's result is propagated.
`addr_of!(storage[0])` indexes the first byte of the buffer and panics when
`bytes = 0` (empty vector), before the callback is invoked; that outcome is
`none`.  The platform-chosen placement of the buffer enters as the
`base_address` parameter. -/
def withRegion {R : Type} (bytes base_address : Nat) (k : ArenaData → R) : Option R :=
  if bytes = 0 then none
  else some (k (initArena bytes base_address))

/-- A client performing a sequence of `allocate` calls, continuing past
`Err` results (as `try_reserve` callers may) and unwinding at a panic. -/
def runAllocs : ArenaData → List Layout → ArenaData × List AllocResult
  | data, [] => (data, [])
  | data, l :: ls =>
    let step := allocate data l
    match step.2 with
    | AllocResult.panicked => (step.1, [AllocResult.panicked])
    | AllocResult.allocError =>
      let rest := runAllocs step.1 ls
      (rest.1, AllocResult.allocError :: rest.2)
    | AllocResult.ok b =>
      let rest := runAllocs step.1 ls
      (rest.1, AllocResult.ok b :: rest.2)

/-- The byte ranges of the successful allocations among a list of outcomes. -/
def okRanges (rs : List AllocResult) : List ByteRange :=
  rs.filterMap fun r =>
    match r with
    | AllocResult.ok b => some b
    | _ => none

/-- Two byte ranges occupy disjoint sets of addresses. -/
def rangesDisjoint (r1 r2 : ByteRange) : Prop :=
  r1.addr + r1.len ≤ r2.addr ∨ r2.addr + r2.len ≤ r1.addr

/-- From the spec: the next address greater than or equal to `addr` that is
a multiple of `alignment`. -/
def nextAligned (addr alignment : Nat) : Nat :=
  if addr % alignment = 0 then addr else addr + (alignment - addr % alignment)

/-- From the spec: padding is the gap between `base + offset` and the next
aligned address at or above it. -/
def specPadding (base offset alignment : Nat) : Nat :=
  nextAligned (base + offset) alignment - (base + offset)

/-! ### Helper lemmas about a single `allocate` call -/

/-- `allocate` unfolded into its three outcome branches. -/
lemma allocate_eq (d : ArenaData) (l : Layout) :
    allocate d l =
      if padding d.base_address l.align + l.size > d.storage.length - d.offset then
        (d, AllocResult.allocError)
      else if d.offset + padding d.base_address l.align ≤ l.size ∧
          l.size ≤ d.storage.length then
        ({ d with offset := d.offset + (padding d.base_address l.align + l.size) },
         AllocResult.ok
           ⟨d.base_address + (d.offset + padding d.base_address l.align),
            l.size - (d.offset + padding d.base_address l.align)⟩)
      else
        ({ d with offset := d.offset + (padding d.base_address l.align + l.size) },
         AllocResult.panicked) := rfl

lemma allocate_storage (d : ArenaData) (l : Layout) :
    ((allocate d l).1).storage = d.storage := by
  rw [allocate_eq]
  split
  · rfl
  · split <;> rfl

lemma allocate_base (d : ArenaData) (l : Layout) :
    ((allocate d l).1).base_address = d.base_address := by
  rw [allocate_eq]
  split
  · rfl
  · split <;> rfl

lemma allocate_offset_mono (d : ArenaData) (l : Layout) :
    d.offset ≤ (allocate d l).1.offset := by
  rw [allocate_eq]
  split
  · exact Nat.le_refl _
  · split <;> exact Nat.le_add_right _ _

lemma allocate_error_iff (d : ArenaData) (l : Layout) :
    (allocate d l).2 = AllocResult.allocError ↔
      d.storage.length - d.offset < padding d.base_address l.align + l.size := by
  rw [allocate_eq]
  split
  · simpa using by omega
  · split <;> simpa using by omega

lemma allocate_error_state (d : ArenaData) (l : Layout) :
    (allocate d l).2 = AllocResult.allocError → (allocate d l).1 = d := by
  rw [allocate_eq]
  split
  · intro _; rfl
  · split <;> simp

lemma allocate_not_error_offset (d : ArenaData) (l : Layout) :
    (allocate d l).2 ≠ AllocResult.allocError →
      (allocate d l).1.offset = d.offset + (padding d.base_address l.align + l.size) := by
  rw [allocate_eq]
  split
  · intro h; exact absurd rfl h
  · split <;> intro _ <;> rfl

lemma allocate_offset_le (d : ArenaData) (l : Layout)
    (h : d.offset ≤ d.storage.length) :
    (allocate d l).1.offset ≤ d.storage.length := by
  rw [allocate_eq]
  split
  · exact h
  · next hsp => split <;> (simp only; omega)

lemma allocate_ok_range (d : ArenaData) (l : Layout) (b : ByteRange) :
    (allocate d l).2 = AllocResult.ok b →
      d.base_address + d.offset ≤ b.addr ∧
      b.addr + b.len ≤ d.base_address + (allocate d l).1.offset ∧
      b.addr + b.len ≤ d.base_address + d.storage.length := by
  rw [allocate_eq]
  split
  · simp
  · next hsp =>
    split
    · next hsl =>
      intro hb
      simp only [AllocResult.ok.injEq] at hb
      subst hb
      simp only
      omega
    · simp

/-! ### Helper lemmas about a sequence of `allocate` calls -/

/-- Invariants of a whole run: the cursor never decreases, storage and base
address are untouched, every returned range lies between the pre-run cursor
and the post-run cursor (and inside the storage), and all returned ranges
are pairwise disjoint. -/
lemma runAllocs_spec (reqs : List Layout) : ∀ d : ArenaData,
    d.offset ≤ (runAllocs d reqs).1.offset ∧
    (runAllocs d reqs).1.storage = d.storage ∧
    (runAllocs d reqs).1.base_address = d.base_address ∧
    (∀ b ∈ okRanges (runAllocs d reqs).2,
      d.base_address + d.offset ≤ b.addr ∧
      b.addr + b.len ≤ d.base_address + (runAllocs d reqs).1.offset ∧
      b.addr + b.len ≤ d.base_address + d.storage.length) ∧
    (okRanges (runAllocs d reqs).2).Pairwise rangesDisjoint := by
  induction reqs with
  | nil =>
    intro d
    refine ⟨Nat.le_refl _, rfl, rfl, ?_, ?_⟩ <;> simp [runAllocs, okRanges]
  | cons l ls ih =>
    intro d
    obtain ⟨ihMono, ihSt, ihBase, ihRange, ihPw⟩ := ih (allocate d l).1
    have hmono := allocate_offset_mono d l
    have hst := allocate_storage d l
    have hbase := allocate_base d l
    cases h : (allocate d l).2 with
    | panicked =>
      simp only [runAllocs, h, okRanges, List.filterMap]
      exact ⟨hmono, hst, hbase, by simp [okRanges], by simp [okRanges]⟩
    | allocError =>
      have hrw : runAllocs d (l :: ls) =
          ((runAllocs (allocate d l).1 ls).1,
           AllocResult.allocError :: (runAllocs (allocate d l).1 ls).2) := by
        simp [runAllocs, h]
      rw [hrw]
      have hok : okRanges (AllocResult.allocError :: (runAllocs (allocate d l).1 ls).2) =
          okRanges (runAllocs (allocate d l).1 ls).2 := by
        simp [okRanges]
      refine ⟨Nat.le_trans hmono ihMono, ihSt.trans hst, ihBase.trans hbase, ?_, ?_⟩
      · intro b hb
        rw [hok] at hb
        obtain ⟨h1, h2, h3⟩ := ihRange b hb
        rw [hbase] at h1 h2 h3
        rw [hst] at h3
        exact ⟨Nat.le_trans (by omega) h1, h2, h3⟩
      · rw [hok]; exact ihPw
    | ok b0 =>
      have hrw : runAllocs d (l :: ls) =
          ((runAllocs (allocate d l).1 ls).1,
           AllocResult.ok b0 :: (runAllocs (allocate d l).1 ls).2) := by
        simp [runAllocs, h]
      rw [hrw]
      have hok : okRanges (AllocResult.ok b0 :: (runAllocs (allocate d l).1 ls).2) =
          b0 :: okRanges (runAllocs (allocate d l).1 ls).2 := by
        simp [okRanges]
      obtain ⟨hb1, hb2, hb3⟩ := allocate_ok_range d l b0 h
      refine ⟨Nat.le_trans hmono ihMono, ihSt.trans hst, ihBase.trans hbase, ?_, ?_⟩
      · intro b hb
        rw [hok] at hb
        rcases List.mem_cons.mp hb with hb | hb
        · subst hb
          refine ⟨hb1, ?_, hb3⟩
          calc b.addr + b.len ≤ d.base_address + (allocate d l).1.offset := hb2
            _ ≤ d.base_address + (runAllocs (allocate d l).1 ls).1.offset := by omega
        · obtain ⟨h1, h2, h3⟩ := ihRange b hb
          rw [hbase] at h1 h2 h3
          rw [hst] at h3
          exact ⟨Nat.le_trans (by omega) h1, h2, h3⟩
      · rw [hok]
        refine List.pairwise_cons.mpr ⟨?_, ihPw⟩
        intro b hb
        obtain ⟨h1, _, _⟩ := ihRange b hb
        rw [hbase] at h1
        left
        exact Nat.le_trans hb2 h1

/-! ### Claim theorems -/

/-- C1: the claim says every successful allocation's start address is a
multiple of the requested power-of-two alignment, for every allocation in a
sequence.  The code aligns only the region base address, so a second
1024-aligned allocation from a 1024-aligned base starts at address 1025,
which is not a multiple of 1024. -/
theorem allocate_misaligns_second_allocation :
    (runAllocs (initArena 32 1024) [⟨1, 1024⟩, ⟨1, 1024⟩]).2 =
      [AllocResult.ok ⟨1024, 1⟩, AllocResult.ok ⟨1025, 0⟩] ∧
    1025 % 1024 = 1 := by decide

/-- C2: the claim says the aligned start is the next address `≥ base + offset`
that is a multiple of the alignment, and that the returned range has length
`size`.  At cursor 1 with alignment 2 the spec's aligned start is 1026, but
the code returns a range starting at 1025 with length 1 instead of the
requested 2, and advances the cursor to 3 by `paddingFromBase + size = 2`,
not the spec's `padding + size = 3`. -/
theorem allocate_start_and_length_diverge :
    (runAllocs (initArena 16 1024) [⟨1, 1⟩, ⟨2, 2⟩]).2 =
      [AllocResult.ok ⟨1024, 1⟩, AllocResult.ok ⟨1025, 1⟩] ∧
    nextAligned (1024 + (runAllocs (initArena 16 1024) [⟨1, 1⟩]).1.offset) 2 = 1026 ∧
    (runAllocs (initArena 16 1024) [⟨1, 1⟩]).1.offset = 1 ∧
    (runAllocs (initArena 16 1024) [⟨1, 1⟩, ⟨2, 2⟩]).1.offset = 3 := by decide

/-- C3 counterexample: with padding read as the spec defines it (the gap
between `base + offset` and the next aligned address), the claimed
equivalence is false: at cursor 1 in a 16-byte arena at base 1024, a request
of size 15 and alignment 2 has `specPadding + size = 16 >` remaining
capacity `15`, yet the code does not return `OutOfSpace` (it computes its
padding from the base alone). -/
theorem allocate_succeeds_despite_spec_padding_overflow :
    specPadding 1024 (runAllocs (initArena 16 1024) [⟨1, 1⟩]).1.offset 2 + 15 >
      16 - (runAllocs (initArena 16 1024) [⟨1, 1⟩]).1.offset ∧
    (allocate (runAllocs (initArena 16 1024) [⟨1, 1⟩]).1 ⟨15, 2⟩).2 ≠
      AllocResult.allocError := by decide

/-- C3 amended: `allocate` fails with `OutOfSpace` if and only if
`p + size` exceeds the remaining capacity `capacity - offset`, where `p` is
the front adjustment the code actually computes, `alignedBase - base`
(derived from the region base alone, not from `base + offset`); and on that
failure the entire `ArenaData` is left exactly as it was. -/
theorem allocate_error_iff_code_padding_exceeds_space (d : ArenaData) (l : Layout) :
    ((allocate d l).2 = AllocResult.allocError ↔
      d.storage.length - d.offset < padding d.base_address l.align + l.size) ∧
    ((allocate d l).2 = AllocResult.allocError → (allocate d l).1 = d) :=
  ⟨allocate_error_iff d l, allocate_error_state d l⟩

theorem allocate_error_iff_code_padding_exceeds_space_witness :
    (allocate (initArena 4 1024) ⟨9, 1⟩).2 = AllocResult.allocError ∧
    (allocate (initArena 4 1024) ⟨9, 1⟩).1 = initArena 4 1024 := by
  have h := allocate_error_iff_code_padding_exceeds_space (initArena 4 1024) ⟨9, 1⟩
  have he : (allocate (initArena 4 1024) ⟨9, 1⟩).2 = AllocResult.allocError :=
    h.1.mpr (by decide)
  exact ⟨he, h.2 he⟩

/-- C4: for every pair of successful allocations from the same arena their
byte ranges are disjoint, and every returned range lies inside the backing
region `[base, base + capacity)`.  This holds for arbitrary request
sequences (the degenerate ranges the slice bug produces are still disjoint
and in bounds). -/
theorem allocations_disjoint_and_in_bounds (d : ArenaData) (reqs : List Layout) :
    (okRanges (runAllocs d reqs).2).Pairwise rangesDisjoint ∧
    ∀ b ∈ okRanges (runAllocs d reqs).2,
      d.base_address ≤ b.addr ∧ b.addr + b.len ≤ d.base_address + d.storage.length := by
  obtain ⟨_, _, _, hRange, hPw⟩ := runAllocs_spec reqs d
  refine ⟨hPw, fun b hb => ?_⟩
  obtain ⟨h1, _, h3⟩ := hRange b hb
  exact ⟨by omega, h3⟩

theorem allocations_disjoint_and_in_bounds_witness :
    (okRanges (runAllocs (initArena 16 1024) [⟨1, 1⟩, ⟨2, 2⟩]).2).Pairwise rangesDisjoint ∧
    (1024 ≤ 1025 ∧ 1025 + 1 ≤ 1024 + 16) := by
  have h := allocations_disjoint_and_in_bounds (initArena 16 1024) [⟨1, 1⟩, ⟨2, 2⟩]
  have hb := h.2 ⟨1025, 1⟩ (by decide)
  exact ⟨h.1, hb⟩

/-- C5: `allocate` is not total: after a first 1-byte allocation the cursor
is 1, and a zero-size request makes the slice expression
`storage[current_offset + alignment .. layout.size()]` have start index 1
and end index 0, so the call panics instead of returning a range or an
error. -/
theorem allocate_panics_on_slice_bounds :
    (runAllocs (initArena 16 1024) [⟨1, 1⟩, ⟨0, 1⟩]).2 =
      [AllocResult.ok ⟨1024, 1⟩, AllocResult.panicked] ∧
    (runAllocs (initArena 16 1024) [⟨1, 1⟩]).1.offset + padding 1024 1 > 0 := by decide

/-- C6 counterexample: a successful zero-size allocation does not strictly
increase the cursor: `allocate ⟨0, 1⟩` on a fresh arena succeeds and leaves
the offset unchanged. -/
theorem allocate_zero_size_succeeds_without_strict_increase :
    (allocate (initArena 16 1024) ⟨0, 1⟩).2 = AllocResult.ok ⟨1024, 0⟩ ∧
    (allocate (initArena 16 1024) ⟨0, 1⟩).1.offset = (initArena 16 1024).offset := by
  decide

/-- C6 amended: over any sequence of `allocate` calls the cursor is
non-decreasing, and each successful call increases it by at least the
requested size, strictly so whenever the requested size is positive. -/
theorem offset_monotone_and_grows_by_size (d : ArenaData) (reqs : List Layout)
    (l : Layout) (b : ByteRange) :
    d.offset ≤ (runAllocs d reqs).1.offset ∧
    ((allocate d l).2 = AllocResult.ok b →
      d.offset + l.size ≤ (allocate d l).1.offset) ∧
    ((allocate d l).2 = AllocResult.ok b → 0 < l.size →
      d.offset < (allocate d l).1.offset) := by
  have hmono := (runAllocs_spec reqs d).1
  have hofs : (allocate d l).2 = AllocResult.ok b →
      (allocate d l).1.offset = d.offset + (padding d.base_address l.align + l.size) := by
    intro h
    exact allocate_not_error_offset d l (by rw [h]; intro hc; cases hc)
  exact ⟨hmono, fun h => by rw [hofs h]; omega, fun h hs => by rw [hofs h]; omega⟩

theorem offset_monotone_and_grows_by_size_witness :
    (initArena 16 1024).offset ≤ (runAllocs (initArena 16 1024) [⟨1, 1⟩]).1.offset ∧
    (initArena 16 1024).offset + 1 ≤ (allocate (initArena 16 1024) ⟨1, 1⟩).1.offset ∧
    (initArena 16 1024).offset < (allocate (initArena 16 1024) ⟨1, 1⟩).1.offset := by
  have h := offset_monotone_and_grows_by_size (initArena 16 1024) [⟨1, 1⟩] ⟨1, 1⟩ ⟨1024, 1⟩
  exact ⟨h.1, h.2.1 (by decide), h.2.2 (by decide) (by decide)⟩

/-- C7: `0 ≤ offset ≤ capacity` holds at construction (the fresh arena has
offset `0` and capacity-many bytes of storage) and is preserved by every
`allocate` call — succeeding, failing, or panicking — and by every
`deallocate` call.  (`0 ≤ offset` is immediate since offsets are natural
numbers.) -/
theorem offset_le_capacity_invariant (bytes base ptr : Nat) (d : ArenaData)
    (l : Layout) (h : d.offset ≤ d.storage.length) :
    (initArena bytes base).offset ≤ (initArena bytes base).storage.length ∧
    (allocate d l).1.offset ≤ ((allocate d l).1).storage.length ∧
    (deallocate d ptr l).offset ≤ (deallocate d ptr l).storage.length := by
  refine ⟨Nat.zero_le _, ?_, h⟩
  rw [allocate_storage]
  exact allocate_offset_le d l h

theorem offset_le_capacity_invariant_witness :
    (initArena 8 1024).offset ≤ (initArena 8 1024).storage.length ∧
    (allocate (initArena 8 1024) ⟨3, 2⟩).1.offset ≤
      ((allocate (initArena 8 1024) ⟨3, 2⟩).1).storage.length ∧
    (deallocate (initArena 8 1024) 1024 ⟨3, 2⟩).offset ≤
      (deallocate (initArena 8 1024) 1024 ⟨3, 2⟩).storage.length := by
  have h := offset_le_capacity_invariant 8 1024 1024 (initArena 8 1024) ⟨3, 2⟩ (by decide)
  exact h

/-- C8: the claim says a zero-size allocation always succeeds when the
remaining capacity permits.  In a fresh 16-byte arena at base 1027, a
zero-size request with alignment 4 needs only 1 byte of padding (well within
capacity), yet the call panics: the slice expression gets start index 1 and
end index 0. -/
theorem allocate_zero_size_panics :
    padding 1027 4 + 0 ≤
      (initArena 16 1027).storage.length - (initArena 16 1027).offset ∧
    (allocate (initArena 16 1027) ⟨0, 4⟩).2 = AllocResult.panicked := by decide

/-- C9: `deallocate` is always a no-op: for any arena state, pointer and
layout it returns the state unchanged, and it has no failure outcome. -/
theorem deallocate_noop (d : ArenaData) (ptr : Nat) (l : Layout) :
    deallocate d ptr l = d := rfl

/-- C10 counterexample: with capacity 0, `Arena::with` panics before
invoking the body — `addr_of!(storage[0])` indexes an empty buffer — so no
result is produced. -/
theorem withRegion_zero_capacity_panics :
    withRegion 0 1024 (fun d => d.offset) = none := by decide

/-- C10 amended: for every positive capacity, `Arena::with` builds a
zero-initialised buffer of exactly `bytes` bytes with the cursor at 0,
invokes the body once on that arena, and returns the body's value. -/
theorem withRegion_pos_capacity_runs_body {R : Type} (bytes base : Nat)
    (k : ArenaData → R) (h : 0 < bytes) :
    withRegion bytes base k = some (k (initArena bytes base)) ∧
    (initArena bytes base).storage = List.replicate bytes 0 ∧
    (initArena bytes base).storage.length = bytes ∧
    (initArena bytes base).offset = 0 := by
  refine ⟨?_, rfl, by simp [initArena], rfl⟩
  rw [withRegion, if_neg (Nat.pos_iff_ne_zero.mp h)]

theorem withRegion_pos_capacity_runs_body_witness :
    withRegion 4 1024 (fun d => d.offset) = some 0 ∧
    (initArena 4 1024).offset = 0 := by
  have h := withRegion_pos_capacity_runs_body 4 1024 (fun d => d.offset) (by decide)
  exact ⟨h.1.trans rfl, h.2.2.2⟩
